import Mathlib

/-!
Shallow embedding of the revision-scheduling and mastery-progression core of
the ConceptPulse server (Hono routes over a per-key key-value store), together
with theorems settling the specification claims about it.

Timestamps are modelled as a linear calendar-day count plus a time-of-day
component: the source's `setDate(getDate() + n)` adds n calendar days while
preserving the time-of-day, and `iso.split('T')[0]` comparisons compare the
calendar-day components only.
-/

namespace ConceptPulse

/-- A timestamp: calendar day index plus time-of-day. -/
structure DateTime where
  day : Int
  tod : Int
deriving DecidableEq, Repr

/-- `setDate(getDate() + n)`: add n calendar days, keep the time-of-day. -/
def addDays (d : DateTime) (n : Int) : DateTime :=
  { d with day := d.day + n }

/-- A stored revision record, with the fields written by the server routes. -/
structure Revision where
  user_id : String
  topic : String
  subject : String
  revision_day : Int
  scheduled_date : DateTime
  completed : Bool
  recall_score : Option Int
  completed_at : Option Int
deriving DecidableEq, Repr

/-- A stored per-user-per-topic progress record; every field is optional
because the source builds it by spreading partial objects. -/
structure Progress where
  user_id : Option String
  topic : Option String
  subject : Option String
  day1_score : Option Int
  day3_score : Option Int
  day7_score : Option Int
  mastery_level : Option String
  updated_at : Option Int
deriving DecidableEq, Repr

/-- The empty object `{}` used when no progress record exists yet. -/
def emptyProgress : Progress :=
  { user_id := none, topic := none, subject := none, day1_score := none,
    day3_score := none, day7_score := none, mastery_level := none,
    updated_at := none }

/-- Modelled from the spec: the external key-value collaborator's
`get(key) -> value | null` (the module `kv_store.tsx` itself is not among the
sources; §6 of the spec describes a simple per-key map). -/
def kvGet {α : Type} : List (String × α) → String → Option α
  | [], _ => none
  | (k', v') :: rest, k => if k' = k then some v' else kvGet rest k

/-- Modelled from the spec: the external key-value collaborator's
`set(key, value)` — overwrites the value stored under the key in place, or
appends a new entry (preserving insertion order, per §6 of the spec). -/
def kvSet {α : Type} : List (String × α) → String → α → List (String × α)
  | [], k, v => [(k, v)]
  | (k', v') :: rest, k, v =>
      if k' = k then (k, v) :: rest else (k', v') :: kvSet rest k v

/-- `calculateMasteryLevel(progress, day, score)` from the server source.
Missing day scores default to 0 (`progress.day1_score || 0`); the `score`
parameter is accepted but never read. -/
def calculateMasteryLevel (progress : Progress) (day : Int) (score : Int) : String :=
  let day1 := progress.day1_score.getD 0
  let day3 := progress.day3_score.getD 0
  let day7 := progress.day7_score.getD 0
  if day = 7 ∧ day7 ≥ 80 then "mastered"
  else if day ≥ 3 ∧ day3 ≥ 70 ∧ day1 ≥ 60 then "improving"
  else if day = 1 ∧ day1 ≥ 60 then "learning"
  else "weak"

/-- The weak-concept test applied on diagnostic submission:
`score < 70 || confidence < 3`. The diagnostic score is a percentage that can
be fractional (`correct / total * 100`), so it is modelled as a rational. -/
def isWeak (score : Rat) (confidence : Int) : Bool :=
  score < 70 || confidence < 3

/-- The days of the revision schedule: `const revisionDays = [1, 3, 7]`. -/
def revisionDays : List Int := [1, 3, 7]

/-- The key under which a scheduled revision is stored:
`revision:userId:topic:dayN`. -/
def revisionKey (userId topic : String) (day : Int) : String :=
  "revision:" ++ userId ++ ":" ++ topic ++ ":day" ++ toString day

/-- One iteration of the scheduling loop: the revision record written for a
given day offset. -/
def mkRevision (userId topic subject : String) (anchor : DateTime) (day : Int) : Revision :=
  { user_id := userId, topic := topic, subject := subject, revision_day := day,
    scheduled_date := addDays anchor day, completed := false,
    recall_score := none, completed_at := none }

/-- The revision-scheduling loop of `POST /diagnostic/submit`, as the list of
key-record pairs it writes, in loop order. -/
def scheduleRevisions (userId topic subject : String) (anchor : DateTime) :
    List (String × Revision) :=
  revisionDays.map fun day =>
    (revisionKey userId topic day, mkRevision userId topic subject anchor day)

/-- The same scheduling loop acting on the key-value store: each iteration
performs `kv.set(revisionId, record)`. -/
def scheduleRevisionsKV (store : List (String × Revision))
    (userId topic subject : String) (anchor : DateTime) : List (String × Revision) :=
  (scheduleRevisions userId topic subject anchor).foldl
    (fun s e => kvSet s e.1 e.2) store

/-- The due filter of `GET /revisions`:
`r.scheduled_date.split('T')[0] <= today && !r.completed`, i.e. calendar-day
comparison ignoring time-of-day. -/
def getDueRevisions (allRevisions : List Revision) (asOf : DateTime) : List Revision :=
  allRevisions.filter fun r =>
    decide (r.scheduled_date.day ≤ asOf.day) && !r.completed

/-- The progress update written by `POST /revisions/complete`: the spread
`{...existingProgress, ..., [dayN_score]: recallScore, mastery_level, updated_at}`.
The computed key overwrites exactly the field named after the completed
revision day; `mastery_level` is computed from the pre-merge record. -/
def mergeProgress (existing : Progress) (userId topic subject : String)
    (day : Int) (recallScore : Int) (now : Int) : Progress :=
  { existing with
    user_id := some userId
    topic := some topic
    subject := some subject
    day1_score := if day = 1 then some recallScore else existing.day1_score
    day3_score := if day = 3 then some recallScore else existing.day3_score
    day7_score := if day = 7 then some recallScore else existing.day7_score
    mastery_level := some (calculateMasteryLevel existing day recallScore)
    updated_at := some now }

/-- The error cases of `POST /revisions/complete`: the route only ever fails
with the 404 "Revision not found" response (besides auth, which is external). -/
inductive CompleteError where
  | notFound
deriving DecidableEq, Repr

/-- What `POST /revisions/complete` produces on success: the two store writes
and the response payload `{ revision, progress }`. -/
structure CompleteResult where
  revStore : List (String × Revision)
  progStore : List (String × Progress)
  revision : Revision
  progress : Progress
deriving DecidableEq, Repr

/-- `POST /revisions/complete`: load the revision, 404 unless it exists and
belongs to the requesting user, then mark it completed and merge the progress
record (`kv.get(progressId) || {}`). No validation of `recallScore` occurs. -/
def completeRevision (revStore : List (String × Revision))
    (progStore : List (String × Progress)) (userId revisionId : String)
    (recallScore : Int) (now : Int) : Except CompleteError CompleteResult :=
  match kvGet revStore revisionId with
  | none => .error .notFound
  | some revision =>
      if revision.user_id = userId then
        let updated : Revision :=
          { revision with
            completed := true
            recall_score := some recallScore
            completed_at := some now }
        let progressId := "progress:" ++ userId ++ ":" ++ revision.topic
        let existingProgress := (kvGet progStore progressId).getD emptyProgress
        let progress := mergeProgress existingProgress userId revision.topic
          revision.subject revision.revision_day recallScore now
        .ok ⟨kvSet revStore revisionId updated,
             kvSet progStore progressId progress, updated, progress⟩
      else .error .notFound

/-- Projection used in statements: the revision field of a successful result. -/
def revisionOf (e : Except CompleteError CompleteResult) :
    Except CompleteError Revision :=
  e.map fun res => res.revision

/-- Projection used in statements: the stored recall score of a successful
result. -/
def recallScoreOf (e : Except CompleteError CompleteResult) :
    Except CompleteError (Option Int) :=
  e.map fun res => res.revision.recall_score

/-- Projection used in statements: the mastery level of the progress record of
a successful result. -/
def masteryOf (e : Except CompleteError CompleteResult) :
    Except CompleteError (Option String) :=
  e.map fun res => res.progress.mastery_level

/-- Projection used in statements: the day-score field of a progress record
named by a day offset. -/
def dayScore (q : Progress) (n : Int) : Option Int :=
  if n = 1 then q.day1_score
  else if n = 3 then q.day3_score
  else if n = 7 then q.day7_score
  else none

end ConceptPulse

namespace ConceptPulse

/-- C1: `calculateMasteryLevel` classifies from the stored day-scores with
missing days defaulting to 0: it returns "mastered" iff the completed day is 7
and day7 >= 80; else "improving" iff the completed day is >= 3 and day3 >= 70
and day1 >= 60; else "learning" iff the completed day is 1 and day1 >= 60;
else "weak" — for every progress record and every completed day in {1,3,7},
with literal (unrescaled) threshold comparisons. -/
theorem calculateMasteryLevel_classification (p : Progress) (day score : Int)
    (hday : day = 1 ∨ day = 3 ∨ day = 7) :
    (calculateMasteryLevel p day score = "mastered" ↔
      day = 7 ∧ p.day7_score.getD 0 ≥ 80)
  ∧ (calculateMasteryLevel p day score = "improving" ↔
      ¬(day = 7 ∧ p.day7_score.getD 0 ≥ 80) ∧
      day ≥ 3 ∧ p.day3_score.getD 0 ≥ 70 ∧ p.day1_score.getD 0 ≥ 60)
  ∧ (calculateMasteryLevel p day score = "learning" ↔
      ¬(day = 7 ∧ p.day7_score.getD 0 ≥ 80) ∧
      ¬(day ≥ 3 ∧ p.day3_score.getD 0 ≥ 70 ∧ p.day1_score.getD 0 ≥ 60) ∧
      day = 1 ∧ p.day1_score.getD 0 ≥ 60)
  ∧ (calculateMasteryLevel p day score = "weak" ↔
      ¬(day = 7 ∧ p.day7_score.getD 0 ≥ 80) ∧
      ¬(day ≥ 3 ∧ p.day3_score.getD 0 ≥ 70 ∧ p.day1_score.getD 0 ≥ 60) ∧
      ¬(day = 1 ∧ p.day1_score.getD 0 ≥ 60)) := by
  simp only [calculateMasteryLevel]
  split_ifs with h1 h2 h3 <;> simp_all

/-- Witness for C1: instantiation at the empty progress record and day 1. -/
theorem calculateMasteryLevel_classification_witness :
    calculateMasteryLevel emptyProgress 1 5 = "mastered" ↔
      (1 : Int) = 7 ∧ emptyProgress.day7_score.getD 0 ≥ 80 :=
  (calculateMasteryLevel_classification emptyProgress 1 5 (Or.inl rfl)).1

/-- C5: the mastery level computed on revision completion does not depend on
the just-submitted recall score — `calculateMasteryLevel` never reads its
`score` argument, so any two new scores yield the same classification. -/
theorem calculateMasteryLevel_ignores_new_score (p : Progress) (day s1 s2 : Int) :
    calculateMasteryLevel p day s1 = calculateMasteryLevel p day s2 := rfl

end ConceptPulse

namespace ConceptPulse

/-- C9: for every score in [0,100] and confidence in [1,5], a diagnostic
submission creates a WeakConcept record iff score < 70 or confidence < 3, and
never otherwise; at the boundaries score = 70 with confidence >= 3 does not
qualify, and the spec's sample points evaluate as stated. -/
theorem isWeak_characterisation (score : Rat) (confidence : Int)
    (hs0 : 0 ≤ score) (hs1 : score ≤ 100)
    (hc0 : 1 ≤ confidence) (hc1 : confidence ≤ 5) :
    (isWeak score confidence = true ↔ (score < 70 ∨ confidence < 3))
  ∧ (70 ≤ score → 3 ≤ confidence → isWeak score confidence = false)
  ∧ isWeak 65 5 = true ∧ isWeak 75 2 = true
  ∧ isWeak 80 4 = false ∧ isWeak 69 3 = true := by
  refine ⟨?_, ?_, by decide, by decide, by decide, by decide⟩
  · simp [isWeak]
  · intro h1 h2
    simp [isWeak]
    exact ⟨h1, h2⟩

/-- Witness for C9: instantiation at score 65, confidence 5. -/
theorem isWeak_characterisation_witness :
    isWeak 65 5 = true ↔ ((65 : Rat) < 70 ∨ (5 : Int) < 3) :=
  (isWeak_characterisation 65 5 (by decide) (by decide) (by decide) (by decide)).1

/-- C2: for every anchor time, the scheduling loop run after a graded
diagnostic produces exactly 3 revision records, one per revision day in
{1,3,7}, each not completed and scheduled at the anchor time plus its
revision day in calendar days with the time-of-day preserved. -/
theorem scheduleRevisions_three_calendar_days (u t s : String) (anchor : DateTime) :
    (scheduleRevisions u t s anchor).length = 3
  ∧ (scheduleRevisions u t s anchor).map (fun e => e.2.revision_day) = [1, 3, 7]
  ∧ ∀ e ∈ scheduleRevisions u t s anchor,
      e.2.completed = false
      ∧ e.2.scheduled_date = addDays anchor e.2.revision_day
      ∧ e.2.scheduled_date.day = anchor.day + e.2.revision_day
      ∧ e.2.scheduled_date.tod = anchor.tod := by
  refine ⟨rfl, rfl, ?_⟩
  intro e he
  simp [scheduleRevisions, revisionDays] at he
  rcases he with h | h | h <;> subst h <;> simp [mkRevision, addDays]

/-- Witness for C2: the day-1 entry of a schedule anchored at day 0. -/
theorem scheduleRevisions_three_calendar_days_witness :
    (mkRevision "u" "T" "S" ⟨0, 0⟩ 1).completed = false
    ∧ (mkRevision "u" "T" "S" ⟨0, 0⟩ 1).scheduled_date =
        addDays ⟨0, 0⟩ (mkRevision "u" "T" "S" ⟨0, 0⟩ 1).revision_day
    ∧ (mkRevision "u" "T" "S" ⟨0, 0⟩ 1).scheduled_date.day =
        (0 : Int) + (mkRevision "u" "T" "S" ⟨0, 0⟩ 1).revision_day
    ∧ (mkRevision "u" "T" "S" ⟨0, 0⟩ 1).scheduled_date.tod = (0 : Int) :=
  (scheduleRevisions_three_calendar_days "u" "T" "S" ⟨0, 0⟩).2.2
    (revisionKey "u" "T" 1, mkRevision "u" "T" "S" ⟨0, 0⟩ 1) (by decide)

/-- C3: for every list of revisions and every as-of date, the due filter
returns exactly the revisions whose scheduled calendar day is on or before the
as-of calendar day (time-of-day ignored) and which are not completed, with
multiplicity, preserving the input order; a completed revision is never
returned regardless of its date. -/
theorem getDueRevisions_characterisation (l : List Revision) (asOf : DateTime) :
    (∀ r, r ∈ getDueRevisions l asOf ↔
      r ∈ l ∧ r.scheduled_date.day ≤ asOf.day ∧ r.completed = false)
  ∧ (getDueRevisions l asOf).Sublist l
  ∧ (∀ r, (getDueRevisions l asOf).count r =
      if r.scheduled_date.day ≤ asOf.day ∧ r.completed = false
      then l.count r else 0)
  ∧ (∀ r ∈ getDueRevisions l asOf, r.completed = false) := by
  have hmem : ∀ r, r ∈ getDueRevisions l asOf ↔
      r ∈ l ∧ r.scheduled_date.day ≤ asOf.day ∧ r.completed = false := by
    intro r
    simp [getDueRevisions, List.mem_filter]
  refine ⟨hmem, List.filter_sublist l, ?_, fun r hr => ((hmem r).1 hr).2.2⟩
  intro r
  by_cases h : r.scheduled_date.day ≤ asOf.day ∧ r.completed = false
  · rw [if_pos h]
    apply List.count_filter
    simp [h.1, h.2]
  · rw [if_neg h]
    refine List.count_eq_zero.2 ?_
    intro hr
    exact h ((hmem r).1 hr).2

/-- Witness for C3: a due, uncompleted revision passes the filter and the
never-completed projection applies to it. -/
theorem getDueRevisions_characterisation_witness :
    (mkRevision "u" "T" "S" ⟨0, 0⟩ 1).completed = false :=
  (getDueRevisions_characterisation [mkRevision "u" "T" "S" ⟨0, 0⟩ 1] ⟨5, 0⟩).2.2.2
    (mkRevision "u" "T" "S" ⟨0, 0⟩ 1) (by decide)

end ConceptPulse

namespace ConceptPulse

/-- A sample already-completed stored revision, used to instantiate theorems
about `completeRevision` at concrete inputs. -/
def rev0c : Revision :=
  { user_id := "u", topic := "T", subject := "S", revision_day := 1,
    scheduled_date := ⟨0, 0⟩, completed := true, recall_score := some 4,
    completed_at := some 1 }

/-- C8: the progress update is a pure merge — completing a revision for day N
in {1,3,7} with recall score s overwrites only the dayN score field (setting
it to s), recomputes the mastery level from the pre-merge record and sets the
update timestamp, and leaves the other two day-score fields exactly as they
were. -/
theorem mergeProgress_pure_merge (p : Progress) (u t s : String)
    (day score now : Int) (hday : day = 1 ∨ day = 3 ∨ day = 7) :
    (∀ m, (m = 1 ∨ m = 3 ∨ m = 7) →
      dayScore (mergeProgress p u t s day score now) m =
        if m = day then some score else dayScore p m)
  ∧ (mergeProgress p u t s day score now).mastery_level =
      some (calculateMasteryLevel p day score)
  ∧ (mergeProgress p u t s day score now).updated_at = some now := by
  refine ⟨?_, rfl, rfl⟩
  intro m hm
  rcases hday with h | h | h <;> rcases hm with h' | h' | h' <;> subst h <;> subst h' <;>
    simp [mergeProgress, dayScore]

/-- Witness for C8: completing day 1 leaves the day-3 field unchanged. -/
theorem mergeProgress_pure_merge_witness :
    dayScore (mergeProgress emptyProgress "u" "T" "S" 1 6 0) 3 =
      (if (3 : Int) = 1 then some 6 else dayScore emptyProgress 3) :=
  (mergeProgress_pure_merge emptyProgress "u" "T" "S" 1 6 0 (Or.inl rfl)).1 3
    (Or.inr (Or.inl rfl))

/-- C4: `completeRevision` fails with the not-found error iff the referenced
revision does not exist or does not belong to the requesting user; otherwise
it succeeds and returns the revision with completed = true and the supplied
recall score and completion time — in particular the success case carries no
hypothesis on the stored completed flag, so re-completing an
already-completed revision does not fail and simply overwrites the recall
score and completion time. -/
theorem completeRevision_notFound_iff (revStore : List (String × Revision))
    (progStore : List (String × Progress)) (u rid : String) (s now : Int) :
    (completeRevision revStore progStore u rid s now = .error .notFound ↔
      (kvGet revStore rid = none ∨ ∃ r, kvGet revStore rid = some r ∧ r.user_id ≠ u))
  ∧ (∀ r, kvGet revStore rid = some r → r.user_id = u →
      revisionOf (completeRevision revStore progStore u rid s now) =
        .ok { r with
              completed := true
              recall_score := some s
              completed_at := some now }) := by
  constructor
  · unfold completeRevision
    cases hget : kvGet revStore rid with
    | none => simp
    | some r =>
      by_cases h : r.user_id = u <;> simp [h]
  · intro r hget hu
    simp [completeRevision, hget, hu, revisionOf, Except.map]

/-- Witness for C4: re-completing an already-completed revision succeeds and
overwrites its recall score and completion time. -/
theorem completeRevision_notFound_iff_witness :
    revisionOf (completeRevision [("r1", rev0c)] [] "u" "r1" 9 2) =
      .ok { rev0c with
            completed := true
            recall_score := some 9
            completed_at := some 2 } :=
  (completeRevision_notFound_iff [("r1", rev0c)] [] "u" "r1" 9 2).2 rev0c rfl rfl

/-- C6 counterexample: `completeRevision` does not fail when the supplied
recall score lies outside [1,10] — with the score 999 it succeeds and stores
999 verbatim, contradicting the claimed ValidationError. -/
theorem completeRevision_no_validation_cex :
    (completeRevision [("r1", mkRevision "u" "T" "S" ⟨0, 0⟩ 1)] [] "u" "r1" 999 0).isOk
      = true
  ∧ recallScoreOf
      (completeRevision [("r1", mkRevision "u" "T" "S" ⟨0, 0⟩ 1)] [] "u" "r1" 999 0) =
      .ok (some 999)
  ∧ ¬((1 : Int) ≤ 999 ∧ (999 : Int) ≤ 10) :=
  ⟨rfl, rfl, by decide⟩

/-- C6 amended: `completeRevision` performs no range validation of the recall
score — whenever the revision exists and is owned by the requesting user, the
call succeeds for every supplied recall score and stores it verbatim, with no
clamping. -/
theorem completeRevision_stores_score_verbatim
    (revStore : List (String × Revision)) (progStore : List (String × Progress))
    (u rid : String) (s now : Int) (r : Revision)
    (hget : kvGet revStore rid = some r) (hu : r.user_id = u) :
    (completeRevision revStore progStore u rid s now).isOk = true
  ∧ recallScoreOf (completeRevision revStore progStore u rid s now) = .ok (some s) := by
  simp [completeRevision, hget, hu, recallScoreOf, Except.isOk, Except.toBool, Except.map]

/-- Witness for C6 amended: an in-range score is likewise stored verbatim. -/
theorem completeRevision_stores_score_verbatim_witness :
    (completeRevision [("r1", rev0c)] [] "u" "r1" 7 0).isOk = true
  ∧ recallScoreOf (completeRevision [("r1", rev0c)] [] "u" "r1" 7 0) = .ok (some 7) :=
  completeRevision_stores_score_verbatim [("r1", rev0c)] [] "u" "r1" 7 0 rev0c rfl rfl

/-- C10: completing a revision for a topic with no existing progress record
always yields the mastery level "weak", for every revision day and recall
score (the absent record's day-scores default to 0, below every threshold);
and "mastered" is returned iff the completed day is 7 and the previously
stored day-7 score is at least 80, so it can only be reached once a day-7
score of at least 80 is already stored. -/
theorem first_completion_is_weak
    (revStore : List (String × Revision)) (progStore : List (String × Progress))
    (u rid : String) (s now : Int) (r : Revision)
    (hget : kvGet revStore rid = some r) (hu : r.user_id = u)
    (hnone : kvGet progStore ("progress:" ++ u ++ ":" ++ r.topic) = none) :
    masteryOf (completeRevision revStore progStore u rid s now) = .ok (some "weak")
  ∧ (∀ (p : Progress) (day score : Int),
      calculateMasteryLevel p day score = "mastered" ↔
        day = 7 ∧ p.day7_score.getD 0 ≥ 80) := by
  constructor
  · simp [completeRevision, hget, hu, hnone, masteryOf, mergeProgress,
      calculateMasteryLevel, emptyProgress, Except.map]
  · intro p day score
    simp only [calculateMasteryLevel]
    split_ifs with h1 h2 h3 <;> simp_all

/-- Witness for C10: a first completion on an empty progress store yields
"weak". -/
theorem first_completion_is_weak_witness :
    masteryOf (completeRevision [("r1", mkRevision "u" "T" "S" ⟨0, 0⟩ 1)] [] "u" "r1" 9 0) =
      .ok (some "weak") :=
  (first_completion_is_weak [("r1", mkRevision "u" "T" "S" ⟨0, 0⟩ 1)] [] "u" "r1" 9 0
    (mkRevision "u" "T" "S" ⟨0, 0⟩ 1) rfl rfl rfl).1

end ConceptPulse

namespace ConceptPulse

/-- Setting a key makes it readable back. -/
theorem kvGet_kvSet_self {α : Type} (x : List (String × α)) (k : String) (v : α) :
    kvGet (kvSet x k v) k = some v := by
  induction x with
  | nil => simp [kvSet, kvGet]
  | cons e rest ih =>
    obtain ⟨k', v'⟩ := e
    by_cases h : k' = k
    · subst h; simp [kvSet, kvGet]
    · simp [kvSet, kvGet, h, ih]

/-- Setting a key leaves reads of every other key unchanged. -/
theorem kvGet_kvSet_ne {α : Type} (x : List (String × α)) (k k2 : String) (v : α)
    (h : k ≠ k2) : kvGet (kvSet x k v) k2 = kvGet x k2 := by
  induction x with
  | nil => simp [kvSet, kvGet, h]
  | cons e rest ih =>
    obtain ⟨k', v'⟩ := e
    by_cases h' : k' = k
    · subst h'; simp [kvSet, kvGet, h]
    · simp [kvSet, kvGet, h', ih]

/-- Writing a key twice keeps only the second value. -/
theorem kvSet_kvSet_self {α : Type} (x : List (String × α)) (k : String) (v w : α) :
    kvSet (kvSet x k v) k w = kvSet x k w := by
  induction x with
  | nil => simp [kvSet]
  | cons e rest ih =>
    obtain ⟨k', v'⟩ := e
    by_cases h : k' = k
    · subst h; simp [kvSet]
    · simp [kvSet, h, ih]

/-- Writes to distinct keys commute, provided the first key is already
present (so neither order appends the two entries the other way round). -/
theorem kvSet_comm_left {α : Type} (x : List (String × α)) (k1 k2 : String) (v w : α)
    (hmem : (kvGet x k1).isSome = true) (hne : k1 ≠ k2) :
    kvSet (kvSet x k1 v) k2 w = kvSet (kvSet x k2 w) k1 v := by
  induction x with
  | nil => simp [kvGet] at hmem
  | cons e rest ih =>
    obtain ⟨k', v'⟩ := e
    by_cases h1 : k' = k1
    · subst h1
      simp [kvSet, hne, Ne.symm hne]
    · by_cases h2 : k' = k2
      · subst h2
        simp [kvSet, hne, Ne.symm hne, h1]
      · have hmem' : (kvGet rest k1).isSome = true := by
          simpa [kvGet, h1] using hmem
        simp [kvSet, h1, h2, ih hmem']

/-- Appending distinct suffixes to one prefix yields distinct strings. -/
theorem string_append_right_ne (p : String) (a b : String) (h : a ≠ b) :
    p ++ a ≠ p ++ b := by
  intro he
  apply h
  have hd : p.data ++ a.data = p.data ++ b.data := by
    simpa [String.data_append] using congrArg String.data he
  exact String.ext (List.append_cancel_left hd)

/-- C7 counterexample: two diagnostic submissions on the same topic do not
leave the first cohort's records unchanged — the revision keys collide, so
after the second scheduling pass the store still holds only 3 revision
records for the topic, and the record previously stored under the day-1 key
has changed. -/
theorem scheduleRevisionsKV_overwrite_cex :
    (scheduleRevisionsKV (scheduleRevisionsKV [] "u" "T" "S" ⟨0, 0⟩)
        "u" "T" "S" ⟨100, 5⟩).length = 3
  ∧ kvGet (scheduleRevisionsKV (scheduleRevisionsKV [] "u" "T" "S" ⟨0, 0⟩)
        "u" "T" "S" ⟨100, 5⟩) (revisionKey "u" "T" 1) ≠
      kvGet (scheduleRevisionsKV [] "u" "T" "S" ⟨0, 0⟩) (revisionKey "u" "T" 1) :=
  ⟨rfl, by decide⟩

/-- C7 amended: submitting a new diagnostic on a topic that already has
scheduled revisions writes the new cohort to the same three keys
revision:userId:topic:dayN, overwriting the prior cohort for that user and
topic rather than coexisting with it — scheduling twice leaves the store
exactly as scheduling once with the later anchor; records under all other
keys are unchanged; and afterwards each of the three keys holds the latest
cohort's record. -/
theorem scheduleRevisionsKV_overwrites (S : List (String × Revision))
    (u t s : String) (a1 a2 : DateTime) :
    scheduleRevisionsKV (scheduleRevisionsKV S u t s a1) u t s a2 =
      scheduleRevisionsKV S u t s a2
  ∧ (∀ k, k ≠ revisionKey u t 1 → k ≠ revisionKey u t 3 → k ≠ revisionKey u t 7 →
      kvGet (scheduleRevisionsKV S u t s a2) k = kvGet S k)
  ∧ (∀ d, (d = 1 ∨ d = 3 ∨ d = 7) →
      kvGet (scheduleRevisionsKV S u t s a2) (revisionKey u t d) =
        some (mkRevision u t s a2 d)) := by
  have h13 : revisionKey u t 1 ≠ revisionKey u t 3 :=
    string_append_right_ne _ _ _ (by decide)
  have h17 : revisionKey u t 1 ≠ revisionKey u t 7 :=
    string_append_right_ne _ _ _ (by decide)
  have h37 : revisionKey u t 3 ≠ revisionKey u t 7 :=
    string_append_right_ne _ _ _ (by decide)
  have hexp : ∀ (X : List (String × Revision)) (a : DateTime),
      scheduleRevisionsKV X u t s a =
        kvSet (kvSet (kvSet X (revisionKey u t 1) (mkRevision u t s a 1))
          (revisionKey u t 3) (mkRevision u t s a 3))
          (revisionKey u t 7) (mkRevision u t s a 7) := fun X a => rfl
  refine ⟨?_, ?_, ?_⟩
  · rw [hexp, hexp, hexp]
    have mem2 : (kvGet (kvSet S (revisionKey u t 1) (mkRevision u t s a1 1))
        (revisionKey u t 1)).isSome = true := by
      rw [kvGet_kvSet_self]; rfl
    have mem1 : (kvGet (kvSet (kvSet S (revisionKey u t 1) (mkRevision u t s a1 1))
        (revisionKey u t 3) (mkRevision u t s a1 3)) (revisionKey u t 1)).isSome = true := by
      rw [kvGet_kvSet_ne _ _ _ _ (Ne.symm h13)]; exact mem2
    have c1 := kvSet_comm_left
      (kvSet (kvSet S (revisionKey u t 1) (mkRevision u t s a1 1))
        (revisionKey u t 3) (mkRevision u t s a1 3))
      (revisionKey u t 1) (revisionKey u t 7)
      (mkRevision u t s a2 1) (mkRevision u t s a1 7) mem1 h17
    have c2 := kvSet_comm_left
      (kvSet S (revisionKey u t 1) (mkRevision u t s a1 1))
      (revisionKey u t 1) (revisionKey u t 3)
      (mkRevision u t s a2 1) (mkRevision u t s a1 3) mem2 h13
    have c3 := kvSet_kvSet_self S (revisionKey u t 1)
      (mkRevision u t s a1 1) (mkRevision u t s a2 1)
    have E1 : kvSet (kvSet (kvSet (kvSet S (revisionKey u t 1) (mkRevision u t s a1 1))
          (revisionKey u t 3) (mkRevision u t s a1 3))
          (revisionKey u t 7) (mkRevision u t s a1 7))
          (revisionKey u t 1) (mkRevision u t s a2 1) =
        kvSet (kvSet (kvSet S (revisionKey u t 1) (mkRevision u t s a2 1))
          (revisionKey u t 3) (mkRevision u t s a1 3))
          (revisionKey u t 7) (mkRevision u t s a1 7) := by
      rw [← c1, ← c2, c3]
    rw [E1]
    have mem3 : (kvGet (kvSet (kvSet S (revisionKey u t 1) (mkRevision u t s a2 1))
        (revisionKey u t 3) (mkRevision u t s a1 3)) (revisionKey u t 3)).isSome = true := by
      rw [kvGet_kvSet_self]; rfl
    have c4 := kvSet_comm_left
      (kvSet (kvSet S (revisionKey u t 1) (mkRevision u t s a2 1))
        (revisionKey u t 3) (mkRevision u t s a1 3))
      (revisionKey u t 3) (revisionKey u t 7)
      (mkRevision u t s a2 3) (mkRevision u t s a1 7) mem3 h37
    rw [← c4, kvSet_kvSet_self, kvSet_kvSet_self]
  · intro k hk1 hk3 hk7
    rw [hexp, kvGet_kvSet_ne _ _ _ _ (Ne.symm hk7), kvGet_kvSet_ne _ _ _ _ (Ne.symm hk3),
      kvGet_kvSet_ne _ _ _ _ (Ne.symm hk1)]
  · intro d hd
    rcases hd with h | h | h <;> subst h <;> rw [hexp]
    · rw [kvGet_kvSet_ne _ _ _ _ (Ne.symm h17), kvGet_kvSet_ne _ _ _ _ (Ne.symm h13),
        kvGet_kvSet_self]
    · rw [kvGet_kvSet_ne _ _ _ _ (Ne.symm h37), kvGet_kvSet_self]
    · rw [kvGet_kvSet_self]

/-- Witness for C7 amended: after scheduling, the day-1 key holds the latest
cohort's record. -/
theorem scheduleRevisionsKV_overwrites_witness :
    kvGet (scheduleRevisionsKV [] "u" "T" "S" ⟨100, 5⟩) (revisionKey "u" "T" 1) =
      some (mkRevision "u" "T" "S" ⟨100, 5⟩ 1) :=
  (scheduleRevisionsKV_overwrites [] "u" "T" "S" ⟨0, 0⟩ ⟨100, 5⟩).2.2 1 (Or.inl rfl)

end ConceptPulse
